import Mathlib

/-!
Verification of the BulletForceHaxV2 websocket hook pipeline
(`bulletforcehax2_lib/src/hax/hax_impl.rs`).

The development shallowly embeds the hook dispatcher (`websocket_hook`),
the lobby handler (`match_packet_lobby`), the game handler
(`match_packet_game`) and the three room mutation rules
(`strip_password`, `force_games_web`, `force_games_current_ver`).

The photon message codec (the `photon_lib` crate) and the proxy layer that
invokes the hook live outside the embedded source file; their interfaces
are modelled from the specification and are marked as such in their doc
comments.  Hashtables and parameter maps are modelled as association
lists; machine integers carry no arithmetic in this code, so `Nat`/`Int`
suffice.
-/

/-- Photon wire values, as far as this hook inspects them.  Mirrors the
`PhotonDataType` cases used by `hax_impl.rs` (strings, byte keys, integer
actor numbers, booleans, nested hashtables and object arrays). -/
inductive PhotonDataType where
  | null
  | boolean (b : Bool)
  | byte (n : Nat)
  | integer (n : Int)
  | string (s : String)
  | hashtable (entries : List (PhotonDataType × PhotonDataType))
  | objectArray (items : List PhotonDataType)

/-- Mirrors `photon_lib` `OperationRequest`: an operation code plus a
byte-keyed parameter map. -/
structure OperationRequest where
  operation_code : Nat
  parameters : List (Nat × PhotonDataType)

/-- Mirrors `photon_lib` `OperationResponse`: operation code, return code
and a byte-keyed parameter map. -/
structure OperationResponse where
  operation_code : Nat
  return_code : Int
  parameters : List (Nat × PhotonDataType)

/-- Mirrors `photon_lib` `EventData`: an event code plus parameters. -/
structure EventData where
  code : Nat
  parameters : List (Nat × PhotonDataType)

/-- Mirrors `photon_lib` `PhotonMessage`, the closed tagged union of
decoded frames. -/
inductive PhotonMessage where
  | operationRequest (r : OperationRequest)
  | operationResponse (r : OperationResponse)
  | eventData (e : EventData)
  | internalOperationRequest (r : OperationRequest)
  | internalOperationResponse (r : OperationResponse)
  | unclassified

/-- Mirrors `photon_lib` `Player` as used here: nickname and user id
extracted from an actor-properties hashtable. -/
structure Player where
  nickname : Option String
  user_id : Option String

/-- Per-connection mutable hack state.  The struct itself is declared in
`crate::hax` (outside the embedded file); its fields are exactly the ones
`hax_impl.rs` reads and writes, per spec section 3. -/
structure HaxState where
  strip_passwords : Bool
  show_mobile_games : Bool
  show_other_versions : Bool
  game_version : Option String
  user_id : Option String
  player_id : Option Int
  players : List (Int × Player)

/-- Mirrors the `WebSocketHookAction` enum of `hax_impl.rs`. -/
inductive WebSocketHookAction where
  | change (msg : PhotonMessage)
  | drop
  | doNothing

/-- Mirrors `crate::proxy::WebSocketServer`, the fixed channel selector. -/
inductive WebSocketServer where
  | lobbyServer
  | gameServer

/-- Mirrors `crate::proxy::Direction`; only used for logging in the code. -/
inductive Direction where
  | client_to_server
  | server_to_client

namespace operation_code

def AUTHENTICATE : Nat := 230

def JOIN_GAME : Nat := 226

def RAISE_EVENT : Nat := 253

end operation_code

namespace parameter_code

def APP_VERSION : Nat := 220

def USER_ID : Nat := 225

def GAME_LIST : Nat := 222

def CODE : Nat := 244

def DATA : Nat := 245

def PLAYER_PROPERTIES : Nat := 249

def ACTOR_NR : Nat := 254

def ROOM_NAME : Nat := 255

end parameter_code

namespace event_code

def GAME_LIST : Nat := 230

def GAME_LIST_UPDATE : Nat := 229

def JOIN : Nat := 255

end event_code

namespace pun_event_code

def RPC : Nat := 200

def SEND_SERIALIZE : Nat := 201

def INSTANTIATION : Nat := 202

def SEND_SERIALIZE_RELIABLE : Nat := 206

end pun_event_code

/-- String keys and literals used by the mutation rules in `hax_impl.rs`. -/
def roomNameKey : String := "roomName"

def passwordKey : String := "password"

def storeIDKey : String := "storeID"

def gameVersionKey : String := "gameVersion"

def gameversionLowerKey : String := "gameversion"

def reservedGameTag : String := "newfps-"

def webStore : String := "BALYZE_WEB"

def mobileStore : String := "BALYZE_MOBILE"

def pTag : String := "[p] "

def mTag : String := "[M] "

def brTagL : String := "["

def brTagR : String := "] "

/-- Lookup in a byte-keyed parameter map. -/
def getParam : List (Nat × PhotonDataType) → Nat → Option PhotonDataType
  | [], _ => none
  | (k, v) :: rest, key => if k = key then some v else getParam rest key

/-- Replace the value at a byte key (append if absent). -/
def setParam : List (Nat × PhotonDataType) → Nat → PhotonDataType → List (Nat × PhotonDataType)
  | [], key, v => [(key, v)]
  | (k, w) :: rest, key, v =>
    if k = key then (k, v) :: rest else (k, w) :: setParam rest key v

/-- Lookup of a byte-typed key inside a photon hashtable. -/
def getPDTByteKey : List (PhotonDataType × PhotonDataType) → Nat → Option PhotonDataType
  | [], _ => none
  | (PhotonDataType.byte m, v) :: rest, n =>
    if m = n then some v else getPDTByteKey rest n
  | _ :: rest, n => getPDTByteKey rest n

/-- Lookup in a string-keyed custom-property map (`HashMap::get`). -/
def getProp : List (String × PhotonDataType) → String → Option PhotonDataType
  | [], _ => none
  | (k, v) :: rest, key => if k = key then some v else getProp rest key

/-- Mirrors the Rust idiom
`if let Some(PhotonDataType::String(x)) = map.get_mut(key) { *x = f(x) }`:
the first entry at `key` is rewritten when it holds a string, otherwise
the map is untouched. -/
def updateStringProp : List (String × PhotonDataType) → String → (String → String) →
    List (String × PhotonDataType)
  | [], _, _ => []
  | (k, v) :: rest, key, f =>
    if k = key then
      match v with
      | PhotonDataType.string s => (k, PhotonDataType.string (f s)) :: rest
      | _ => (k, v) :: rest
    else (k, v) :: updateStringProp rest key f

/-- Lookup in the players map (`HashMap<i32, Player>::get`). -/
def lookupPlayer : List (Int × Player) → Int → Option Player
  | [], _ => none
  | (k, p) :: rest, key => if k = key then some p else lookupPlayer rest key

/-- Insert-or-overwrite in the players map (`HashMap::insert`). -/
def insertPlayer : List (Int × Player) → Int → Player → List (Int × Player)
  | [], key, p => [(key, p)]
  | (k, q) :: rest, key, p =>
    if k = key then (k, p) :: rest else (k, q) :: insertPlayer rest key p

/-- Room info as used by the lobby rules: the string-keyed custom
properties plus the remaining (byte-keyed) entries of the room
hashtable. -/
structure RoomInfo where
  custom_properties : List (String × PhotonDataType)
  other_fields : List (PhotonDataType × PhotonDataType)

/-- String-keyed entries of a room hashtable, in order. -/
def collectStringProps : List (PhotonDataType × PhotonDataType) → List (String × PhotonDataType)
  | [] => []
  | (PhotonDataType.string s, v) :: rest => (s, v) :: collectStringProps rest
  | _ :: rest => collectStringProps rest

/-- Entries of a room hashtable that are not string-keyed. -/
def collectOtherProps : List (PhotonDataType × PhotonDataType) → List (PhotonDataType × PhotonDataType)
  | [] => []
  | (PhotonDataType.string _, _) :: rest => collectOtherProps rest
  | p :: rest => p :: collectOtherProps rest

/-- Modelled from the spec: `photon_lib`'s typed room accessor
(`RoomInfo::from_map`, not under the embedded sources).  It converts a
room hashtable into a domain record, keeping the string-keyed custom
properties, and fails (as a typed accessor) when a well-known byte field
carries a value of the wrong type. -/
def RoomInfo.from_map (props : List (PhotonDataType × PhotonDataType)) : Except String RoomInfo :=
  match getPDTByteKey props 251 with
  | some (PhotonDataType.boolean _) =>
    Except.ok { custom_properties := collectStringProps props,
                other_fields := collectOtherProps props }
  | none =>
    Except.ok { custom_properties := collectStringProps props,
                other_fields := collectOtherProps props }
  | some _ => Except.error ("malformed room info")

/-- Modelled from the spec: `RoomInfo::into_map`, writing the record back
into a room hashtable. -/
def RoomInfo.into_map (ri : RoomInfo) : List (PhotonDataType × PhotonDataType) :=
  ri.other_fields ++ ri.custom_properties.map (fun p => (PhotonDataType.string p.1, p.2))

/-- Mirrors `photon_lib` `RoomInfoList`: the ordered room-name → room
mapping of a game-list event. -/
structure RoomInfoList where
  games : List (PhotonDataType × PhotonDataType)

/-- Modelled from the spec: `RoomInfoList::from_map` (photon_lib, not
under the embedded sources) reads the game-list parameter of the event;
it fails when the parameter is absent or not a hashtable. -/
def RoomInfoList.from_map (params : List (Nat × PhotonDataType)) : Except String RoomInfoList :=
  match getParam params parameter_code.GAME_LIST with
  | some (PhotonDataType.hashtable games) => Except.ok { games := games }
  | _ => Except.error ("malformed room info list")

/-- Modelled from the spec: `Player::from_map` (photon_lib, not under the
embedded sources), the typed accessor decoding an actor-properties
hashtable into a `Player` record; it fails when an identity field is
present with a non-string value. -/
def Player.from_map (props : List (PhotonDataType × PhotonDataType)) : Except String Player :=
  match getPDTByteKey props 255, getPDTByteKey props 253 with
  | some (PhotonDataType.string nick), some (PhotonDataType.string uid) =>
    Except.ok { nickname := some nick, user_id := some uid }
  | some (PhotonDataType.string nick), none =>
    Except.ok { nickname := some nick, user_id := none }
  | none, some (PhotonDataType.string uid) =>
    Except.ok { nickname := none, user_id := some uid }
  | none, none => Except.ok { nickname := none, user_id := none }
  | _, _ => Except.error ("malformed player properties")

/-- Modelled from the spec: `JoinGameResponseSuccess::from_map`
(photon_lib): actor number plus the per-actor properties hashtable. -/
structure JoinGameResponseSuccess where
  actor_nr : Int
  player_properties : List (PhotonDataType × PhotonDataType)

def JoinGameResponseSuccess.from_map (params : List (Nat × PhotonDataType)) :
    Except String JoinGameResponseSuccess :=
  match getParam params parameter_code.ACTOR_NR,
        getParam params parameter_code.PLAYER_PROPERTIES with
  | some (PhotonDataType.integer n), some (PhotonDataType.hashtable props) =>
    Except.ok { actor_nr := n, player_properties := props }
  | _, _ => Except.error ("malformed join game response")

/-- Modelled from the spec: `JoinGameRequest::from_map` (photon_lib),
decoded for diagnostics only; fails when the room name parameter is
present but not a string. -/
def JoinGameRequest.from_map (params : List (Nat × PhotonDataType)) : Except String Unit :=
  match getParam params parameter_code.ROOM_NAME with
  | some (PhotonDataType.string _) => Except.ok ()
  | none => Except.ok ()
  | some _ => Except.error ("malformed join game request")

/-- Modelled from the spec: `RaiseEvent::from_map` (photon_lib): the
raised event code plus the optional data payload. -/
structure RaiseEvent where
  event_code : Nat
  data : Option PhotonDataType

def RaiseEvent.from_map (params : List (Nat × PhotonDataType)) : Except String RaiseEvent :=
  match getParam params parameter_code.CODE with
  | some (PhotonDataType.byte c) =>
    Except.ok { event_code := c, data := getParam params parameter_code.DATA }
  | _ => Except.error ("malformed raise event")

/-- Modelled from the spec: `RpcCall::from_map` (photon_lib), the RPC
call descriptor; fails when the view id field is missing or mistyped. -/
structure RpcCall where
  view_id : Int
  in_method_parameters : Option (List PhotonDataType)

def RpcCall.from_map (h : List (PhotonDataType × PhotonDataType)) : Except String RpcCall :=
  match getPDTByteKey h 0 with
  | some (PhotonDataType.integer vid) =>
    Except.ok { view_id := vid,
                in_method_parameters :=
                  match getPDTByteKey h 4 with
                  | some (PhotonDataType.objectArray l) => some l
                  | _ => none }
  | _ => Except.error ("malformed rpc call")

/-- Modelled from the spec: `RpcEvent::from_map` followed by
`extract_rpc_call` returns the inner call hashtable (photon_lib). -/
def RpcEvent.from_map (params : List (Nat × PhotonDataType)) :
    Except String (List (PhotonDataType × PhotonDataType)) :=
  match getParam params parameter_code.DATA with
  | some (PhotonDataType.hashtable h) => Except.ok h
  | _ => Except.error ("malformed rpc event")

/-- Modelled from the spec: `InstantiationEvent::from_map` (photon_lib)
yields the nested data hashtable. -/
def InstantiationEvent.from_map (params : List (Nat × PhotonDataType)) :
    Except String (List (PhotonDataType × PhotonDataType)) :=
  match getParam params parameter_code.DATA with
  | some (PhotonDataType.hashtable h) => Except.ok h
  | _ => Except.error ("malformed instantiation event")

/-- Modelled from the spec: `InstantiationEventData::from_map`
(photon_lib); requires the prefab name field to be a string. -/
def InstantiationEventData.from_map (h : List (PhotonDataType × PhotonDataType)) :
    Except String String :=
  match getPDTByteKey h 0 with
  | some (PhotonDataType.string prefab) => Except.ok prefab
  | _ => Except.error ("malformed instantiation data")

/-- One per-object serialized stream of a state-synchronization event. -/
structure SerializedObj where
  view_id : Int
  data_stream : List PhotonDataType

/-- Modelled from the spec: `SendSerializeEvent::from_map` (photon_lib)
keeps the raw data parameter. -/
structure SendSerializeEvent where
  data : Option PhotonDataType

def SendSerializeEvent.from_map (params : List (Nat × PhotonDataType)) :
    Except String SendSerializeEvent :=
  Except.ok { data := getParam params parameter_code.DATA }

def decodeSerializedObj : PhotonDataType → Option SerializedObj
  | PhotonDataType.objectArray (PhotonDataType.integer vid :: rest) =>
    some { view_id := vid, data_stream := rest }
  | _ => none

/-- Modelled from the spec: `get_serialized_data` returns the embedded
per-object streams, or none when the data is absent or undecodable. -/
def SendSerializeEvent.get_serialized_data (ev : SendSerializeEvent) :
    Option (List SerializedObj) :=
  match ev.data with
  | some (PhotonDataType.objectArray objs) => some (objs.filterMap decodeSerializedObj)
  | _ => none

/-- Mirrors `strip_password` of `hax_impl.rs`: when the password custom
property is a non-empty string, prepend the password tag to the room name
and blank the password. -/
def strip_password (ri : RoomInfo) : RoomInfo :=
  let has_password : Bool :=
    match getProp ri.custom_properties passwordKey with
    | some (PhotonDataType.string s) => !s.isEmpty
    | _ => false
  if has_password then
    let cp1 := updateStringProp ri.custom_properties roomNameKey (fun name => pTag ++ name)
    let cp2 := updateStringProp cp1 passwordKey (fun _ => "")
    { ri with custom_properties := cp2 }
  else ri

/-- Mirrors `force_games_web` of `hax_impl.rs`: tag the room name
according to the original store id, then force the store id to the web
store. -/
def force_games_web (ri : RoomInfo) : RoomInfo :=
  let cp1 :=
    match getProp ri.custom_properties storeIDKey with
    | some (PhotonDataType.string store_id) =>
      updateStringProp ri.custom_properties roomNameKey (fun name =>
        if store_id = webStore then name
        else if store_id = mobileStore then mTag ++ name
        else brTagL ++ store_id ++ brTagR ++ name)
    | _ => ri.custom_properties
  { ri with custom_properties := updateStringProp cp1 storeIDKey (fun _ => webStore) }

/-- Mirrors `force_games_current_ver` of `hax_impl.rs`: when the room's
`gameVersion` differs from the target, tag the room name with the
original version and overwrite the version with the target. -/
def force_games_current_ver (ri : RoomInfo) (target_version : String) : RoomInfo :=
  match getProp ri.custom_properties gameVersionKey with
  | some (PhotonDataType.string actual_version) =>
    if actual_version ≠ target_version then
      let cp1 := updateStringProp ri.custom_properties roomNameKey
        (fun name => brTagL ++ actual_version ++ brTagR ++ name)
      let cp2 := updateStringProp cp1 gameVersionKey (fun _ => target_version)
      { ri with custom_properties := cp2 }
    else ri
  | _ => ri

/-- The underscore separator of combined version strings. -/
def underscoreChar : Char := ('_')

/-- Mirrors the local-version derivation in `match_packet_lobby`: keep
only the portion before the first underscore (`split_once`), the whole
string when there is none. -/
def effectiveVersion (v : String) : String :=
  String.mk (v.data.takeWhile (fun c => c != underscoreChar))

/-- Executable model of `str::starts_with`: the pattern's characters are
an initial segment of the string's characters. -/
def strStartsWith (s p : String) : Bool :=
  p.data.isPrefixOf s.data

/-- Mirrors the exemption test in `match_packet_lobby`: the custom
property keyed exactly `gameversion` (lower case) holds a string starting
with the reserved tag of the other game sharing the relay. -/
def isExemptRoom (ri : RoomInfo) : Bool :=
  match getProp ri.custom_properties gameversionLowerKey with
  | some (PhotonDataType.string v) => strStartsWith v reservedGameTag
  | _ => false

/-- Mirrors the per-room rule application of the game-list loop in
`match_packet_lobby`, in source order (platform, version, password),
together with the `changes_made` contribution each branch makes. -/
def processRoom (sp sm sv : Bool) (gv : Option String) (ri : RoomInfo) : RoomInfo × Bool :=
  let st1 : RoomInfo × Bool := if sm then (force_games_web ri, true) else (ri, false)
  let st2 : RoomInfo × Bool :=
    if sv then
      match gv with
      | some v => (force_games_current_ver st1.1 (effectiveVersion v), true)
      | none => st1
    else st1
  if sp then (strip_password st2.1, true) else st2

/-- Mirrors the `for (k, v) in game_list.games.iter_mut()` loop of
`match_packet_lobby`: rooms whose key is a string and value a hashtable
are decoded, exempt rooms are skipped untouched, the rest are rewritten
by `processRoom` and written back; the second component is the
accumulated `changes_made` flag.  A room decode failure aborts the whole
frame, as the `?` operator does. -/
def processGames (sp sm sv : Bool) (gv : Option String) :
    List (PhotonDataType × PhotonDataType) →
    Except String (List (PhotonDataType × PhotonDataType) × Bool)
  | [] => Except.ok ([], false)
  | (k, v) :: rest =>
    match k, v with
    | PhotonDataType.string name, PhotonDataType.hashtable props =>
      (match RoomInfo.from_map props with
       | Except.error e => Except.error e
       | Except.ok ri =>
         if isExemptRoom ri then
           (processGames sp sm sv gv rest).map
             (fun p => ((PhotonDataType.string name, PhotonDataType.hashtable props) :: p.1, p.2))
         else
           let rc := processRoom sp sm sv gv ri
           (processGames sp sm sv gv rest).map
             (fun p => ((PhotonDataType.string name,
                         PhotonDataType.hashtable (RoomInfo.into_map rc.1)) :: p.1,
                        rc.2 || p.2)))
    | _, _ =>
      (processGames sp sm sv gv rest).map (fun p => ((k, v) :: p.1, p.2))

/-- Mirrors the AUTHENTICATE branch of `match_packet_lobby`: record the
app version and user id when present as strings. -/
def authUpdate (hax : HaxState) (params : List (Nat × PhotonDataType)) : HaxState :=
  let hax1 :=
    match getParam params parameter_code.APP_VERSION with
    | some (PhotonDataType.string v) => { hax with game_version := some v }
    | _ => hax
  match getParam params parameter_code.USER_ID with
  | some (PhotonDataType.string u) => { hax1 with user_id := some u }
  | _ => hax1

/-- Mirrors `match_packet_lobby` of `hax_impl.rs`.  The returned state is
the per-connection state after the dispatch (state mutations through the
lock persist even when the branch then fails, as in the Rust original);
the second component is the action or the propagated error. -/
def match_packet_lobby (hax : HaxState) (msg : PhotonMessage) :
    HaxState × Except String WebSocketHookAction :=
  match msg with
  | PhotonMessage.operationRequest req =>
    if req.operation_code = operation_code.AUTHENTICATE then
      (authUpdate hax req.parameters, Except.ok WebSocketHookAction.doNothing)
    else (hax, Except.ok WebSocketHookAction.doNothing)
  | PhotonMessage.eventData event =>
    if event.code = event_code.GAME_LIST ∨ event.code = event_code.GAME_LIST_UPDATE then
      match RoomInfoList.from_map event.parameters with
      | Except.error e => (hax, Except.error e)
      | Except.ok gl =>
        match processGames hax.strip_passwords hax.show_mobile_games
            hax.show_other_versions hax.game_version gl.games with
        | Except.error e => (hax, Except.error e)
        | Except.ok gc =>
          if gc.2 then
            let params2 := setParam event.parameters parameter_code.GAME_LIST
              (PhotonDataType.hashtable gc.1)
            (hax, Except.ok (WebSocketHookAction.change
              (PhotonMessage.eventData { event with parameters := params2 })))
          else (hax, Except.ok WebSocketHookAction.doNothing)
    else (hax, Except.ok WebSocketHookAction.doNothing)
  | _ => (hax, Except.ok WebSocketHookAction.doNothing)

/-- Mirrors the actor-properties loop of the JOIN_GAME success branch:
entries with an integer key and hashtable value are decoded and inserted;
a decode failure stops the loop, keeping the insertions made so far (the
`?` operator inside the `for` loop), and reports the error. -/
def mergePlayers (players : List (Int × Player)) :
    List (PhotonDataType × PhotonDataType) → List (Int × Player) × Option String
  | [] => (players, none)
  | (k, v) :: rest =>
    match k with
    | PhotonDataType.integer actor_id =>
      (match v with
       | PhotonDataType.hashtable actor_props =>
         (match Player.from_map actor_props with
          | Except.ok p => mergePlayers (insertPlayer players actor_id p) rest
          | Except.error e => (players, some e))
       | _ => mergePlayers players rest)
    | _ => mergePlayers players rest

/-- Mirrors `match_packet_game` of `hax_impl.rs`.  All branches are
passive (never produce a change or drop action); the JOIN_GAME success
response extracts the local actor number and the player records into the
state, exactly in the order the Rust code applies them. -/
def match_packet_game (hax : HaxState) (msg : PhotonMessage) :
    HaxState × Except String WebSocketHookAction :=
  match msg with
  | PhotonMessage.operationRequest req =>
    if req.operation_code = operation_code.JOIN_GAME then
      match JoinGameRequest.from_map req.parameters with
      | Except.error e => (hax, Except.error e)
      | Except.ok _ => (hax, Except.ok WebSocketHookAction.doNothing)
    else if req.operation_code = operation_code.RAISE_EVENT then
      match RaiseEvent.from_map req.parameters with
      | Except.error e => (hax, Except.error e)
      | Except.ok raised =>
        if raised.event_code = pun_event_code.RPC then
          match raised.data with
          | none => (hax, Except.error ("RPC call with no data"))
          | some (PhotonDataType.hashtable h) =>
            (match RpcCall.from_map h with
             | Except.error e => (hax, Except.error e)
             | Except.ok _ => (hax, Except.ok WebSocketHookAction.doNothing))
          | some _ => (hax, Except.error ("Expected hashtable args for RPC call"))
        else (hax, Except.ok WebSocketHookAction.doNothing)
    else (hax, Except.ok WebSocketHookAction.doNothing)
  | PhotonMessage.operationResponse resp =>
    if resp.operation_code = operation_code.JOIN_GAME ∧ resp.return_code = 0 then
      match JoinGameResponseSuccess.from_map resp.parameters with
      | Except.error e => (hax, Except.error e)
      | Except.ok jresp =>
        let hax2 := { hax with player_id := some jresp.actor_nr }
        match mergePlayers hax2.players jresp.player_properties with
        | (ps, none) => ({ hax2 with players := ps }, Except.ok WebSocketHookAction.doNothing)
        | (ps, some e) => ({ hax2 with players := ps }, Except.error e)
    else (hax, Except.ok WebSocketHookAction.doNothing)
  | PhotonMessage.eventData event =>
    if event.code = event_code.JOIN then
      match getParam event.parameters parameter_code.PLAYER_PROPERTIES with
      | some (PhotonDataType.hashtable props) =>
        (match Player.from_map props with
         | Except.error e => (hax, Except.error e)
         | Except.ok _ => (hax, Except.ok WebSocketHookAction.doNothing))
      | _ => (hax, Except.ok WebSocketHookAction.doNothing)
    else if event.code = pun_event_code.INSTANTIATION then
      match InstantiationEvent.from_map event.parameters with
      | Except.error e => (hax, Except.error e)
      | Except.ok d =>
        match InstantiationEventData.from_map d with
        | Except.error e => (hax, Except.error e)
        | Except.ok _ => (hax, Except.ok WebSocketHookAction.doNothing)
    else if event.code = pun_event_code.SEND_SERIALIZE ∨
        event.code = pun_event_code.SEND_SERIALIZE_RELIABLE then
      match SendSerializeEvent.from_map event.parameters with
      | Except.error e => (hax, Except.error e)
      | Except.ok ev =>
        match ev.get_serialized_data with
        | none => (hax, Except.error ("SendSerialize data error"))
        | some _ => (hax, Except.ok WebSocketHookAction.doNothing)
    else if event.code = pun_event_code.RPC then
      match RpcEvent.from_map event.parameters with
      | Except.error e => (hax, Except.error e)
      | Except.ok h =>
        match RpcCall.from_map h with
        | Except.error e => (hax, Except.error e)
        | Except.ok _ => (hax, Except.ok WebSocketHookAction.doNothing)
    else (hax, Except.ok WebSocketHookAction.doNothing)
  | _ => (hax, Except.ok WebSocketHookAction.doNothing)

/-- Modelled from the spec: the external message codec interface
(spec section 6): `decode(bytes) → typed message`,
`encode(typed message) → bytes`, both fallible.  The hook is verified for
every codec. -/
structure Codec where
  decode : List Nat → Except String PhotonMessage
  encode : PhotonMessage → Except String (List Nat)

/-- Mirrors `websocket_hook` of `hax_impl.rs`: decode the frame, route it
by channel, then apply the resulting action.  The returned pair is the
state after the dispatch together with either the propagated error or
`(forward?, outgoing bytes)`; on any error the byte buffer argument is
left untouched, exactly as the `&mut Vec<u8>` is in Rust. -/
def websocket_hook (codec : Codec) (hax : HaxState) (server : WebSocketServer)
    (dir : Direction) (data : List Nat) :
    HaxState × Except String (Bool × List Nat) :=
  match codec.decode data with
  | Except.error e => (hax, Except.error e)
  | Except.ok msg =>
    let hs :=
      match server with
      | WebSocketServer.lobbyServer => match_packet_lobby hax msg
      | WebSocketServer.gameServer => match_packet_game hax msg
    match hs.2 with
    | Except.error e => (hs.1, Except.error e)
    | Except.ok WebSocketHookAction.drop => (hs.1, Except.ok (false, data))
    | Except.ok WebSocketHookAction.doNothing => (hs.1, Except.ok (true, data))
    | Except.ok (WebSocketHookAction.change m) =>
      match codec.encode m with
      | Except.error e => (hs.1, Except.error e)
      | Except.ok buf => (hs.1, Except.ok (true, buf))

/-- The verdict the transport layer acts on for one frame. -/
inductive ProxyAction where
  | forward (bytes : List Nat)
  | drop

/-- Modelled from the spec: the transport/interception layer
(`crate::proxy`, not under the embedded sources) applies the hook's
verdict — forward the (possibly replaced) bytes on `Ok(true)`, drop on
`Ok(false)`, and on a hook error log it and fail open, forwarding the
original frame unmodified (spec sections 4.1 and 7). -/
def proxy_handle (codec : Codec) (hax : HaxState) (server : WebSocketServer)
    (dir : Direction) (data : List Nat) : HaxState × ProxyAction :=
  match websocket_hook codec hax server dir data with
  | (st, Except.ok (true, out)) => (st, ProxyAction.forward out)
  | (st, Except.ok (false, _)) => (st, ProxyAction.drop)
  | (st, Except.error _) => (st, ProxyAction.forward data)

/-- The freshly created per-connection state. -/
def emptyHax : HaxState :=
  { strip_passwords := false, show_mobile_games := false, show_other_versions := false,
    game_version := none, user_id := none, player_id := none, players := [] }

/-- A codec whose decode fails on every frame (a corrupted frame, from
the hook's point of view). -/
def failCodec : Codec :=
  { decode := fun _ => Except.error ("bad frame"),
    encode := fun _ => Except.error ("bad frame") }

/-- State with only password stripping enabled. -/
def stripHax : HaxState := { emptyHax with strip_passwords := true }

/-- State with only mobile masking enabled. -/
def mobileHax : HaxState := { emptyHax with show_mobile_games := true }

/-- Room hashtable with a name and a non-empty password. -/
def pwRoomProps : List (PhotonDataType × PhotonDataType) :=
  [(PhotonDataType.string roomNameKey, PhotonDataType.string ("A")),
   (PhotonDataType.string passwordKey, PhotonDataType.string ("secret"))]

/-- A game-list event carrying the passworded room. -/
def pwGameListMsg : PhotonMessage :=
  PhotonMessage.eventData
    { code := event_code.GAME_LIST,
      parameters := [(parameter_code.GAME_LIST, PhotonDataType.hashtable
        [(PhotonDataType.string ("r1"), PhotonDataType.hashtable pwRoomProps)])] }

/-- The rewritten message the lobby engine produces for `pwGameListMsg`
under `stripHax`. -/
def pwChangedMsg : PhotonMessage :=
  PhotonMessage.eventData
    { code := event_code.GAME_LIST,
      parameters := [(parameter_code.GAME_LIST, PhotonDataType.hashtable
        [(PhotonDataType.string ("r1"), PhotonDataType.hashtable
          [(PhotonDataType.string roomNameKey, PhotonDataType.string ("[p] A")),
           (PhotonDataType.string passwordKey, PhotonDataType.string (""))])])] }

/-- A codec that decodes every frame to the passworded game list and
whose encoder always fails. -/
def encodeFailCodec : Codec :=
  { decode := fun _ => Except.ok pwGameListMsg,
    encode := fun _ => Except.error ("encode failure") }

/-- Room hashtable already on the canonical web store: no rule changes
anything about it. -/
def webRoomProps : List (PhotonDataType × PhotonDataType) :=
  [(PhotonDataType.string roomNameKey, PhotonDataType.string ("A")),
   (PhotonDataType.string storeIDKey, PhotonDataType.string webStore)]

/-- A game-list event carrying only the already-web room. -/
def webGameListMsg : PhotonMessage :=
  PhotonMessage.eventData
    { code := event_code.GAME_LIST,
      parameters := [(parameter_code.GAME_LIST, PhotonDataType.hashtable
        [(PhotonDataType.string ("r1"), PhotonDataType.hashtable webRoomProps)])] }

/-- A codec decoding every frame to the already-web game list. -/
def passCodec : Codec :=
  { decode := fun _ => Except.ok webGameListMsg,
    encode := fun _ => Except.ok ([] : List Nat) }

/-- A successful join-game response whose first actor entry has a
non-string nickname, so the player decode fails mid-loop. -/
def badJoinMsg : PhotonMessage :=
  PhotonMessage.operationResponse
    { operation_code := operation_code.JOIN_GAME, return_code := 0,
      parameters :=
        [(parameter_code.ACTOR_NR, PhotonDataType.integer 5),
         (parameter_code.PLAYER_PROPERTIES, PhotonDataType.hashtable
           [(PhotonDataType.integer 1, PhotonDataType.hashtable
             [(PhotonDataType.byte 255, PhotonDataType.integer 7)])])] }

/-- Room hashtable of the other game variant (reserved `gameversion`). -/
def exemptProps : List (PhotonDataType × PhotonDataType) :=
  [(PhotonDataType.string gameversionLowerKey, PhotonDataType.string ("newfps-2.0"))]

/-- The decoded form of `exemptProps`. -/
def exemptRI : RoomInfo :=
  { custom_properties := [(gameversionLowerKey, PhotonDataType.string ("newfps-2.0"))],
    other_fields := [] }

/-- Room on version 1.80.0, for the version-pinning example. -/
def verRI : RoomInfo :=
  { custom_properties :=
      [(gameVersionKey, PhotonDataType.string ("1.80.0")),
       (roomNameKey, PhotonDataType.string ("Room"))],
    other_fields := [] }

/-- The session version string seen in the wild in the spec example. -/
def vSample : String := "1.89.0_1.99"

/-- Room with a non-empty password, for the stripping example. -/
def pwRI : RoomInfo :=
  { custom_properties :=
      [(passwordKey, PhotonDataType.string ("secret")),
       (roomNameKey, PhotonDataType.string ("A"))],
    other_fields := [] }

/-- Room on the mobile store, for the masking example. -/
def mobRI : RoomInfo :=
  { custom_properties :=
      [(storeIDKey, PhotonDataType.string mobileStore),
       (roomNameKey, PhotonDataType.string ("B"))],
    other_fields := [] }

/-- Actor property hashtables for the join scenario. -/
def p1Props : List (PhotonDataType × PhotonDataType) :=
  [(PhotonDataType.byte 255, PhotonDataType.string ("P1"))]

def p2Props : List (PhotonDataType × PhotonDataType) :=
  [(PhotonDataType.byte 255, PhotonDataType.string ("P2"))]

def p2bProps : List (PhotonDataType × PhotonDataType) :=
  [(PhotonDataType.byte 255, PhotonDataType.string ("P2b"))]

def P1rec : Player := { nickname := some ("P1"), user_id := none }

def P2rec : Player := { nickname := some ("P2"), user_id := none }

def P2brec : Player := { nickname := some ("P2b"), user_id := none }

/-- A successful join response listing actors 1 and 2. -/
def joinMsg1 : PhotonMessage :=
  PhotonMessage.operationResponse
    { operation_code := operation_code.JOIN_GAME, return_code := 0,
      parameters :=
        [(parameter_code.ACTOR_NR, PhotonDataType.integer 1),
         (parameter_code.PLAYER_PROPERTIES, PhotonDataType.hashtable
           [(PhotonDataType.integer 1, PhotonDataType.hashtable p1Props),
            (PhotonDataType.integer 2, PhotonDataType.hashtable p2Props)])] }

/-- A later successful join response listing only actor 2. -/
def joinMsg2 : PhotonMessage :=
  PhotonMessage.operationResponse
    { operation_code := operation_code.JOIN_GAME, return_code := 0,
      parameters :=
        [(parameter_code.ACTOR_NR, PhotonDataType.integer 1),
         (parameter_code.PLAYER_PROPERTIES, PhotonDataType.hashtable
           [(PhotonDataType.integer 2, PhotonDataType.hashtable p2bProps)])] }

/-- Session state after the first join response. -/
def scenHax1 : HaxState := (match_packet_game emptyHax joinMsg1).1

/-- Session state after both join responses. -/
def scenHax2 : HaxState := (match_packet_game scenHax1 joinMsg2).1

/-- A codec decoding every frame to the first join response. -/
def joinCodec : Codec :=
  { decode := fun _ => Except.ok joinMsg1,
    encode := fun _ => Except.error ("no encode") }


theorem getProp_update_ne (k k2 : String) (f : String → String) (h : k2 ≠ k) :
    ∀ l : List (String × PhotonDataType),
      getProp (updateStringProp l k f) k2 = getProp l k2 := by
  intro l
  induction l with
  | nil => rfl
  | cons hd tl ih =>
    obtain ⟨k3, v⟩ := hd
    simp only [updateStringProp]
    by_cases hk : k3 = k
    · rw [if_pos hk]
      have h3 : k3 ≠ k2 := by
        intro hh
        exact h (hh ▸ hk)
      cases v <;> simp only [getProp, if_neg h3]
    · rw [if_neg hk]
      simp only [getProp]
      by_cases h2 : k3 = k2
      · rw [if_pos h2, if_pos h2]
      · rw [if_neg h2, if_neg h2]
        exact ih

theorem getProp_update_found (k : String) (f : String → String) (s : String) :
    ∀ l : List (String × PhotonDataType), getProp l k = some (PhotonDataType.string s) →
      getProp (updateStringProp l k f) k = some (PhotonDataType.string (f s)) := by
  intro l
  induction l with
  | nil => intro h; simp [getProp] at h
  | cons hd tl ih =>
    obtain ⟨k3, v⟩ := hd
    intro h
    simp only [updateStringProp]
    by_cases hk : k3 = k
    · rw [if_pos hk]
      simp only [getProp, if_pos hk] at h
      cases v with
      | string s2 =>
        simp only [Option.some.injEq, PhotonDataType.string.injEq] at h
        subst h
        simp only [getProp, if_pos hk]
      | null => simp at h
      | boolean b => simp at h
      | byte n => simp at h
      | integer n => simp at h
      | hashtable es => simp at h
      | objectArray xs => simp at h
    · rw [if_neg hk]
      simp only [getProp, if_neg hk] at h
      simp only [getProp, if_neg hk]
      exact ih h

theorem lookupPlayer_insert (k2 k : Int) (p : Player) :
    ∀ l : List (Int × Player),
      lookupPlayer (insertPlayer l k p) k2 =
        if k = k2 then some p else lookupPlayer l k2 := by
  intro l
  induction l with
  | nil => simp [insertPlayer, lookupPlayer]
  | cons hd tl ih =>
    obtain ⟨k3, q⟩ := hd
    simp only [insertPlayer]
    by_cases hk : k3 = k
    · rw [if_pos hk]
      subst hk
      simp only [lookupPlayer]
      by_cases h2 : k3 = k2
      · rw [if_pos h2, if_pos h2]
      · rw [if_neg h2, if_neg h2, if_neg h2]
    · rw [if_neg hk]
      simp only [lookupPlayer]
      by_cases h2 : k3 = k2
      · rw [if_pos h2]
        have : k ≠ k2 := by
          intro hh
          exact hk (h2.trans hh.symm)
        rw [if_neg this, if_pos h2]
      · rw [if_neg h2, if_neg h2]
        exact ih

theorem mergePlayers_mono (k : Int) :
    ∀ (entries : List (PhotonDataType × PhotonDataType)) (players : List (Int × Player)),
      (∃ p, lookupPlayer players k = some p) →
      ∃ q, lookupPlayer (mergePlayers players entries).1 k = some q := by
  intro entries
  induction entries with
  | nil => intro players h; exact h
  | cons hd tl ih =>
    intro players h
    obtain ⟨k2, v⟩ := hd
    cases k2 with
    | integer aid =>
      cases v with
      | hashtable props =>
        cases hfm : Player.from_map props with
        | ok q2 =>
          simp only [mergePlayers, hfm]
          apply ih
          rw [lookupPlayer_insert]
          by_cases haid : aid = k
          · exact ⟨q2, by rw [if_pos haid]⟩
          · obtain ⟨p, hp⟩ := h
            exact ⟨p, by rw [if_neg haid]; exact hp⟩
        | error e => simpa only [mergePlayers, hfm] using h
      | null => simpa only [mergePlayers] using ih players h
      | boolean b => simpa only [mergePlayers] using ih players h
      | byte n => simpa only [mergePlayers] using ih players h
      | integer n => simpa only [mergePlayers] using ih players h
      | string s => simpa only [mergePlayers] using ih players h
      | objectArray xs => simpa only [mergePlayers] using ih players h
    | null => simpa only [mergePlayers] using ih players h
    | boolean b => simpa only [mergePlayers] using ih players h
    | byte n => simpa only [mergePlayers] using ih players h
    | string s => simpa only [mergePlayers] using ih players h
    | hashtable es => simpa only [mergePlayers] using ih players h
    | objectArray xs => simpa only [mergePlayers] using ih players h

theorem authUpdate_preserves (hax : HaxState) (params : List (Nat × PhotonDataType)) :
    (authUpdate hax params).players = hax.players ∧
      (authUpdate hax params).player_id = hax.player_id := by
  unfold authUpdate
  constructor <;> (split <;> split <;> rfl)

theorem match_packet_lobby_state (hax : HaxState) (msg : PhotonMessage) :
    ((match_packet_lobby hax msg).1).players = hax.players ∧
      ((match_packet_lobby hax msg).1).player_id = hax.player_id := by
  cases msg with
  | operationRequest req =>
    simp only [match_packet_lobby]
    split
    · exact authUpdate_preserves hax req.parameters
    · exact ⟨rfl, rfl⟩
  | operationResponse resp => exact ⟨rfl, rfl⟩
  | eventData event =>
    simp only [match_packet_lobby]
    split
    · split
      · exact ⟨rfl, rfl⟩
      · split
        · exact ⟨rfl, rfl⟩
        · split
          · exact ⟨rfl, rfl⟩
          · exact ⟨rfl, rfl⟩
    · exact ⟨rfl, rfl⟩
  | internalOperationRequest req => exact ⟨rfl, rfl⟩
  | internalOperationResponse resp => exact ⟨rfl, rfl⟩
  | unclassified => exact ⟨rfl, rfl⟩

theorem match_packet_game_players_mono (hax : HaxState) (msg : PhotonMessage) (k : Int) :
    (∃ p, lookupPlayer hax.players k = some p) →
    ∃ q, lookupPlayer ((match_packet_game hax msg).1).players k = some q := by
  intro h
  cases msg with
  | operationRequest req =>
    simp only [match_packet_game]
    repeat' split
    all_goals exact h
  | operationResponse resp =>
    by_cases hc : resp.operation_code = operation_code.JOIN_GAME ∧ resp.return_code = 0
    · simp only [match_packet_game, if_pos hc]
      cases hfm : JoinGameResponseSuccess.from_map resp.parameters with
      | error e => simp only [hfm]; exact h
      | ok jresp =>
        simp only [hfm]
        have hm := mergePlayers_mono k jresp.player_properties hax.players h
        cases hmp : mergePlayers hax.players jresp.player_properties with
        | mk ps o =>
          rw [hmp] at hm
          cases o with
          | none => simpa only [hmp] using hm
          | some e => simpa only [hmp] using hm
    · simp only [match_packet_game, if_neg hc]
      exact h
  | eventData event =>
    simp only [match_packet_game]
    repeat' split
    all_goals exact h
  | internalOperationRequest req => exact h
  | internalOperationResponse resp => exact h
  | unclassified => exact h

theorem match_packet_game_player_id (hax : HaxState) (msg : PhotonMessage) :
    ((match_packet_game hax msg).1).player_id = hax.player_id ∨
      ∃ r, msg = PhotonMessage.operationResponse r ∧
        r.operation_code = operation_code.JOIN_GAME ∧ r.return_code = 0 := by
  cases msg with
  | operationRequest req =>
    left
    simp only [match_packet_game]
    repeat' split
    all_goals rfl
  | operationResponse resp =>
    by_cases hc : resp.operation_code = operation_code.JOIN_GAME ∧ resp.return_code = 0
    · exact Or.inr ⟨resp, rfl, hc⟩
    · left
      simp only [match_packet_game, if_neg hc]
  | eventData event =>
    left
    simp only [match_packet_game]
    repeat' split
    all_goals rfl
  | internalOperationRequest req => exact Or.inl rfl
  | internalOperationResponse resp => exact Or.inl rfl
  | unclassified => exact Or.inl rfl

theorem match_packet_game_no_drop (hax : HaxState) (msg : PhotonMessage) :
    (∃ e, (match_packet_game hax msg).2 = Except.error e) ∨
      (match_packet_game hax msg).2 = Except.ok WebSocketHookAction.doNothing := by
  cases msg with
  | operationRequest req =>
    simp only [match_packet_game]
    repeat' split
    all_goals first
      | exact Or.inr rfl
      | exact Or.inl ⟨_, rfl⟩
  | operationResponse resp =>
    simp only [match_packet_game]
    repeat' split
    all_goals first
      | exact Or.inr rfl
      | exact Or.inl ⟨_, rfl⟩
  | eventData event =>
    simp only [match_packet_game]
    repeat' split
    all_goals first
      | exact Or.inr rfl
      | exact Or.inl ⟨_, rfl⟩
  | internalOperationRequest req => exact Or.inr rfl
  | internalOperationResponse resp => exact Or.inr rfl
  | unclassified => exact Or.inr rfl

theorem match_packet_lobby_no_drop (hax : HaxState) (msg : PhotonMessage) :
    (∃ e, (match_packet_lobby hax msg).2 = Except.error e) ∨
      ((match_packet_lobby hax msg).2 = Except.ok WebSocketHookAction.doNothing) ∨
      (∃ m, (match_packet_lobby hax msg).2 = Except.ok (WebSocketHookAction.change m)) := by
  cases msg with
  | operationRequest req =>
    simp only [match_packet_lobby]
    repeat' split
    all_goals first
      | exact Or.inr (Or.inl rfl)
      | exact Or.inl ⟨_, rfl⟩
      | exact Or.inr (Or.inr ⟨_, rfl⟩)
  | operationResponse resp => exact Or.inr (Or.inl rfl)
  | eventData event =>
    simp only [match_packet_lobby]
    repeat' split
    all_goals first
      | exact Or.inr (Or.inl rfl)
      | exact Or.inl ⟨_, rfl⟩
      | exact Or.inr (Or.inr ⟨_, rfl⟩)
  | internalOperationRequest req => exact Or.inr (Or.inl rfl)
  | internalOperationResponse resp => exact Or.inr (Or.inl rfl)
  | unclassified => exact Or.inr (Or.inl rfl)

theorem processGames_off (gv : Option String) :
    ∀ (games : List (PhotonDataType × PhotonDataType))
      (l : List (PhotonDataType × PhotonDataType)) (c : Bool),
      processGames false false false gv games = Except.ok (l, c) → c = false := by
  intro games
  induction games with
  | nil =>
    intro l c h
    simp only [processGames, Except.ok.injEq, Prod.mk.injEq] at h
    exact h.2.symm
  | cons hd tl ih =>
    intro l c h
    obtain ⟨k, v⟩ := hd
    cases k with
    | string name =>
      cases v with
      | hashtable props =>
        simp only [processGames] at h
        cases hrm : RoomInfo.from_map props with
        | error e =>
          simp only [hrm] at h
          exact absurd h (by simp)
        | ok ri =>
          simp only [hrm] at h
          by_cases hex : isExemptRoom ri = true
          · rw [if_pos hex] at h
            cases hrec : processGames false false false gv tl with
            | error e => rw [hrec] at h; simp [Except.map] at h
            | ok p =>
              obtain ⟨l2, c2⟩ := p
              rw [hrec] at h
              simp only [Except.map, Except.ok.injEq, Prod.mk.injEq] at h
              rw [← h.2]
              exact ih l2 c2 hrec
          · rw [if_neg hex] at h
            cases hrec : processGames false false false gv tl with
            | error e => rw [hrec] at h; simp [Except.map] at h
            | ok p =>
              obtain ⟨l2, c2⟩ := p
              rw [hrec] at h
              simp only [Except.map, Except.ok.injEq, Prod.mk.injEq] at h
              obtain ⟨h1, h2⟩ := h
              have hrc : (processRoom false false false gv ri).2 = false := rfl
              rw [hrc, Bool.false_or] at h2
              rw [← h2]
              exact ih l2 c2 hrec
      | null =>
        simp only [processGames] at h
        cases hrec : processGames false false false gv tl with
        | error e => rw [hrec] at h; simp [Except.map] at h
        | ok p =>
          obtain ⟨l2, c2⟩ := p
          rw [hrec] at h
          simp only [Except.map, Except.ok.injEq, Prod.mk.injEq] at h
          rw [← h.2]
          exact ih l2 c2 hrec
      | boolean b =>
        simp only [processGames] at h
        cases hrec : processGames false false false gv tl with
        | error e => rw [hrec] at h; simp [Except.map] at h
        | ok p =>
          obtain ⟨l2, c2⟩ := p
          rw [hrec] at h
          simp only [Except.map, Except.ok.injEq, Prod.mk.injEq] at h
          rw [← h.2]
          exact ih l2 c2 hrec
      | byte n =>
        simp only [processGames] at h
        cases hrec : processGames false false false gv tl with
        | error e => rw [hrec] at h; simp [Except.map] at h
        | ok p =>
          obtain ⟨l2, c2⟩ := p
          rw [hrec] at h
          simp only [Except.map, Except.ok.injEq, Prod.mk.injEq] at h
          rw [← h.2]
          exact ih l2 c2 hrec
      | integer n =>
        simp only [processGames] at h
        cases hrec : processGames false false false gv tl with
        | error e => rw [hrec] at h; simp [Except.map] at h
        | ok p =>
          obtain ⟨l2, c2⟩ := p
          rw [hrec] at h
          simp only [Except.map, Except.ok.injEq, Prod.mk.injEq] at h
          rw [← h.2]
          exact ih l2 c2 hrec
      | string s2 =>
        simp only [processGames] at h
        cases hrec : processGames false false false gv tl with
        | error e => rw [hrec] at h; simp [Except.map] at h
        | ok p =>
          obtain ⟨l2, c2⟩ := p
          rw [hrec] at h
          simp only [Except.map, Except.ok.injEq, Prod.mk.injEq] at h
          rw [← h.2]
          exact ih l2 c2 hrec
      | objectArray xs =>
        simp only [processGames] at h
        cases hrec : processGames false false false gv tl with
        | error e => rw [hrec] at h; simp [Except.map] at h
        | ok p =>
          obtain ⟨l2, c2⟩ := p
          rw [hrec] at h
          simp only [Except.map, Except.ok.injEq, Prod.mk.injEq] at h
          rw [← h.2]
          exact ih l2 c2 hrec
    | null =>
      simp only [processGames] at h
      cases hrec : processGames false false false gv tl with
      | error e => rw [hrec] at h; simp [Except.map] at h
      | ok p =>
        obtain ⟨l2, c2⟩ := p
        rw [hrec] at h
        simp only [Except.map, Except.ok.injEq, Prod.mk.injEq] at h
        rw [← h.2]
        exact ih l2 c2 hrec
    | boolean b =>
      simp only [processGames] at h
      cases hrec : processGames false false false gv tl with
      | error e => rw [hrec] at h; simp [Except.map] at h
      | ok p =>
        obtain ⟨l2, c2⟩ := p
        rw [hrec] at h
        simp only [Except.map, Except.ok.injEq, Prod.mk.injEq] at h
        rw [← h.2]
        exact ih l2 c2 hrec
    | byte n =>
      simp only [processGames] at h
      cases hrec : processGames false false false gv tl with
      | error e => rw [hrec] at h; simp [Except.map] at h
      | ok p =>
        obtain ⟨l2, c2⟩ := p
        rw [hrec] at h
        simp only [Except.map, Except.ok.injEq, Prod.mk.injEq] at h
        rw [← h.2]
        exact ih l2 c2 hrec
    | integer n =>
      simp only [processGames] at h
      cases hrec : processGames false false false gv tl with
      | error e => rw [hrec] at h; simp [Except.map] at h
      | ok p =>
        obtain ⟨l2, c2⟩ := p
        rw [hrec] at h
        simp only [Except.map, Except.ok.injEq, Prod.mk.injEq] at h
        rw [← h.2]
        exact ih l2 c2 hrec
    | hashtable es =>
      simp only [processGames] at h
      cases hrec : processGames false false false gv tl with
      | error e => rw [hrec] at h; simp [Except.map] at h
      | ok p =>
        obtain ⟨l2, c2⟩ := p
        rw [hrec] at h
        simp only [Except.map, Except.ok.injEq, Prod.mk.injEq] at h
        rw [← h.2]
        exact ih l2 c2 hrec
    | objectArray xs =>
      simp only [processGames] at h
      cases hrec : processGames false false false gv tl with
      | error e => rw [hrec] at h; simp [Except.map] at h
      | ok p =>
        obtain ⟨l2, c2⟩ := p
        rw [hrec] at h
        simp only [Except.map, Except.ok.injEq, Prod.mk.injEq] at h
        rw [← h.2]
        exact ih l2 c2 hrec

theorem hook_error_forwards (codec : Codec) (hax : HaxState) (server : WebSocketServer)
    (dir : Direction) (data : List Nat) :
    ∀ e, (websocket_hook codec hax server dir data).2 = Except.error e →
      (proxy_handle codec hax server dir data).2 = ProxyAction.forward data := by
  intro e h
  unfold proxy_handle
  cases hw : websocket_hook codec hax server dir data with
  | mk st r =>
    rw [hw] at h
    cases r with
    | error e2 => rfl
    | ok br => exact absurd h (by simp)

/-- C1: fail-open on decode failure.  When the top-level frame decode
fails, the hook returns exactly that decode error with the state and the
byte buffer untouched; and on every hook error — which includes a decode
failure inside any routed lobby or game branch — the transport layer
forwards the original bytes unmodified, so the frame is never dropped
and no unrecoverable fault is raised (the hook is a total function). -/
theorem decode_fail_open (codec : Codec) (hax : HaxState) (server : WebSocketServer)
    (dir : Direction) (data : List Nat) :
    (∀ e, codec.decode data = Except.error e →
      websocket_hook codec hax server dir data = (hax, Except.error e)) ∧
    (∀ e, (websocket_hook codec hax server dir data).2 = Except.error e →
      (proxy_handle codec hax server dir data).2 = ProxyAction.forward data) := by
  constructor
  · intro e h
    simp only [websocket_hook, h]
  · exact hook_error_forwards codec hax server dir data

/-- Witness for `decode_fail_open`: a concrete corrupted frame is
reported as a decode error and forwarded unmodified. -/
theorem decode_fail_open_witness :
    websocket_hook failCodec emptyHax WebSocketServer.lobbyServer Direction.client_to_server
        ([0]) = (emptyHax, Except.error ("bad frame")) ∧
      (proxy_handle failCodec emptyHax WebSocketServer.lobbyServer Direction.client_to_server
        ([0])).2 = ProxyAction.forward ([0]) :=
  ⟨(decode_fail_open failCodec emptyHax WebSocketServer.lobbyServer Direction.client_to_server
      ([0])).1 ("bad frame") rfl,
   (decode_fail_open failCodec emptyHax WebSocketServer.lobbyServer Direction.client_to_server
      ([0])).2 ("bad frame") rfl⟩

/-- C2: fallback on encode failure.  Whenever a routed handler returned a
changed message and re-encoding that message fails, the hook aborts the
mutation — it returns the encode error with the byte buffer untouched —
and the transport layer forwards the original unmodified bytes; moreover
any bytes the hook does emit are either the original frame or bytes the
codec itself produced, so a message the codec could not encode is never
emitted and the connection is not faulted. -/
theorem encode_fail_fallback (codec : Codec) (hax : HaxState) (server : WebSocketServer)
    (dir : Direction) (data : List Nat) :
    (∀ (m m2 : PhotonMessage) (st : HaxState) (e : String),
      codec.decode data = Except.ok m →
      (match server with
       | WebSocketServer.lobbyServer => match_packet_lobby hax m
       | WebSocketServer.gameServer => match_packet_game hax m) =
        (st, Except.ok (WebSocketHookAction.change m2)) →
      codec.encode m2 = Except.error e →
      websocket_hook codec hax server dir data = (st, Except.error e) ∧
        (proxy_handle codec hax server dir data).2 = ProxyAction.forward data) ∧
    (∀ (st : HaxState) (b : Bool) (out : List Nat),
      websocket_hook codec hax server dir data = (st, Except.ok (b, out)) →
      out = data ∨ ∃ m3, codec.encode m3 = Except.ok out) := by
  constructor
  · intro m m2 st e hdec hroute henc
    have hhook : websocket_hook codec hax server dir data = (st, Except.error e) := by
      simp only [websocket_hook, hdec, hroute, henc]
    refine ⟨hhook, ?_⟩
    exact hook_error_forwards codec hax server dir data e (by rw [hhook])
  · intro st b out hv
    cases hdec : codec.decode data with
    | error e =>
      simp only [websocket_hook, hdec] at hv
      exact absurd hv (by simp)
    | ok m =>
      simp only [websocket_hook, hdec] at hv
      cases server with
      | lobbyServer =>
        rcases match_packet_lobby_no_drop hax m with ⟨e, he⟩ | hdn | ⟨m2, hm⟩
        · simp only [he] at hv
          exact absurd hv (by simp)
        · simp only [hdn, Prod.mk.injEq, Except.ok.injEq] at hv
          exact Or.inl hv.2.2.symm
        · simp only [hm] at hv
          cases henc : codec.encode m2 with
          | error e =>
            simp only [henc] at hv
            exact absurd hv (by simp)
          | ok buf =>
            simp only [henc, Prod.mk.injEq, Except.ok.injEq] at hv
            refine Or.inr ⟨m2, ?_⟩
            rw [← hv.2.2]
            exact henc
      | gameServer =>
        rcases match_packet_game_no_drop hax m with ⟨e, he⟩ | hdn
        · simp only [he] at hv
          exact absurd hv (by simp)
        · simp only [hdn, Prod.mk.injEq, Except.ok.injEq] at hv
          exact Or.inl hv.2.2.symm

/-- Witness for `encode_fail_fallback`: a concrete frame whose mutation
is rewritten but whose re-encode fails is forwarded as the original. -/
theorem encode_fail_fallback_witness :
    websocket_hook encodeFailCodec stripHax WebSocketServer.lobbyServer
        Direction.client_to_server ([7]) = (stripHax, Except.error ("encode failure")) ∧
      (proxy_handle encodeFailCodec stripHax WebSocketServer.lobbyServer
        Direction.client_to_server ([7])).2 = ProxyAction.forward ([7]) :=
  (encode_fail_fallback encodeFailCodec stripHax WebSocketServer.lobbyServer
      Direction.client_to_server ([7])).1 pwGameListMsg pwChangedMsg stripHax
      ("encode failure") rfl rfl rfl

/-- C10: the drop outcome is unreachable.  For every codec, state,
channel, direction and frame, the hook's verdict is either an error or a
forward verdict — never the do-not-forward result `Ok(false)` — and
neither the lobby handler nor the game handler ever constructs the
`Drop` action. -/
theorem drop_unreachable (codec : Codec) (hax : HaxState) (server : WebSocketServer)
    (dir : Direction) (data : List Nat) :
    ((∃ e, (websocket_hook codec hax server dir data).2 = Except.error e) ∨
      (∃ out, (websocket_hook codec hax server dir data).2 = Except.ok (true, out))) ∧
    (∀ (hax2 : HaxState) (msg : PhotonMessage),
      (∃ e, (match_packet_lobby hax2 msg).2 = Except.error e) ∨
        ((match_packet_lobby hax2 msg).2 = Except.ok WebSocketHookAction.doNothing) ∨
        (∃ m, (match_packet_lobby hax2 msg).2 = Except.ok (WebSocketHookAction.change m))) ∧
    (∀ (hax2 : HaxState) (msg : PhotonMessage),
      (∃ e, (match_packet_game hax2 msg).2 = Except.error e) ∨
        ((match_packet_game hax2 msg).2 = Except.ok WebSocketHookAction.doNothing)) := by
  refine ⟨?_, match_packet_lobby_no_drop, match_packet_game_no_drop⟩
  cases hdec : codec.decode data with
  | error e =>
    left
    exact ⟨e, by simp only [websocket_hook, hdec]⟩
  | ok m =>
    simp only [websocket_hook, hdec]
    cases server with
    | lobbyServer =>
      rcases match_packet_lobby_no_drop hax m with ⟨e, he⟩ | hdn | ⟨m2, hm⟩
      · left
        exact ⟨e, by simp only [he]⟩
      · right
        exact ⟨data, by simp only [hdn]⟩
      · simp only [hm]
        cases henc : codec.encode m2 with
        | error e =>
          left
          exact ⟨e, by simp only [henc]⟩
        | ok buf =>
          right
          exact ⟨buf, by simp only [henc]⟩
    | gameServer =>
      rcases match_packet_game_no_drop hax m with ⟨e, he⟩ | hdn
      · left
        exact ⟨e, by simp only [he]⟩
      · right
        exact ⟨data, by simp only [hdn]⟩

theorem lobby_toggles_off_doNothing (hax : HaxState) (msg : PhotonMessage)
    (hsp : hax.strip_passwords = false) (hsm : hax.show_mobile_games = false)
    (hsv : hax.show_other_versions = false) :
    ∀ (st : HaxState) (act : WebSocketHookAction),
      match_packet_lobby hax msg = (st, Except.ok act) →
      act = WebSocketHookAction.doNothing := by
  intro st act h
  cases msg with
  | operationRequest req =>
    simp only [match_packet_lobby] at h
    split at h
    · simp only [Prod.mk.injEq, Except.ok.injEq] at h
      exact h.2.symm
    · simp only [Prod.mk.injEq, Except.ok.injEq] at h
      exact h.2.symm
  | operationResponse resp =>
    simp only [match_packet_lobby, Prod.mk.injEq, Except.ok.injEq] at h
    exact h.2.symm
  | eventData event =>
    by_cases hc : event.code = event_code.GAME_LIST ∨ event.code = event_code.GAME_LIST_UPDATE
    · simp only [match_packet_lobby, if_pos hc] at h
      cases hfm : RoomInfoList.from_map event.parameters with
      | error e =>
        simp only [hfm] at h
        exact absurd h (by simp)
      | ok gl =>
        simp only [hfm] at h
        cases hpg : processGames hax.strip_passwords hax.show_mobile_games
            hax.show_other_versions hax.game_version gl.games with
        | error e =>
          simp only [hpg] at h
          exact absurd h (by simp)
        | ok gc =>
          obtain ⟨l2, c2⟩ := gc
          have hc2 : c2 = false := by
            apply processGames_off hax.game_version gl.games l2 c2
            rw [hsp, hsm, hsv] at hpg
            exact hpg
          subst hc2
          simp only [hpg, Bool.false_eq_true, if_false, Prod.mk.injEq, Except.ok.injEq] at h
          exact h.2.symm
    · simp only [match_packet_lobby, if_neg hc, Prod.mk.injEq, Except.ok.injEq] at h
      exact h.2.symm
  | internalOperationRequest req =>
    simp only [match_packet_lobby, Prod.mk.injEq, Except.ok.injEq] at h
    exact h.2.symm
  | internalOperationResponse resp =>
    simp only [match_packet_lobby, Prod.mk.injEq, Except.ok.injEq] at h
    exact h.2.symm
  | unclassified =>
    simp only [match_packet_lobby, Prod.mk.injEq, Except.ok.injEq] at h
    exact h.2.symm

/-- C3 counterexample: with only `show_mobile_games` enabled and a single
room already on the canonical web store, no room property is altered —
the rewritten message is identical to the decoded input — yet the lobby
engine reports the listing as changed and hands a re-encoding to the
dispatcher: `changes_made` is set because a toggle is enabled, not
because a room was actually altered. -/
theorem lobby_changed_without_alteration :
    (match_packet_lobby mobileHax webGameListMsg).2 =
      Except.ok (WebSocketHookAction.change webGameListMsg) := rfl

/-- C3 amended: the lobby engine returns "changed" only when at least
one toggle is enabled (it may report "changed" even when no room content
was actually altered); for every room listing processed with every
toggle disabled it returns "unchanged", and the hook then forwards bytes
byte-identical to the input. -/
theorem lobby_changed_requires_toggle (codec : Codec) (hax : HaxState) (dir : Direction)
    (data : List Nat) (msg : PhotonMessage) :
    (∀ (st : HaxState) (m : PhotonMessage),
      match_packet_lobby hax msg = (st, Except.ok (WebSocketHookAction.change m)) →
      (hax.strip_passwords || hax.show_mobile_games || hax.show_other_versions) = true) ∧
    (hax.strip_passwords = false → hax.show_mobile_games = false →
      hax.show_other_versions = false →
      (∀ (st : HaxState) (act : WebSocketHookAction),
        match_packet_lobby hax msg = (st, Except.ok act) →
        act = WebSocketHookAction.doNothing) ∧
      (∀ (st : HaxState) (b : Bool) (out : List Nat),
        websocket_hook codec hax WebSocketServer.lobbyServer dir data =
          (st, Except.ok (b, out)) → out = data)) := by
  constructor
  · intro st m h
    cases hsp : hax.strip_passwords with
    | true => rfl
    | false =>
      cases hsm : hax.show_mobile_games with
      | true => rfl
      | false =>
        cases hsv : hax.show_other_versions with
        | true => rfl
        | false =>
          exfalso
          have hd := lobby_toggles_off_doNothing hax msg hsp hsm hsv st
            (WebSocketHookAction.change m) h
          exact absurd hd (by simp)
  · intro hsp hsm hsv
    refine ⟨lobby_toggles_off_doNothing hax msg hsp hsm hsv, ?_⟩
    intro st b out hv
    cases hdec : codec.decode data with
    | error e =>
      simp only [websocket_hook, hdec] at hv
      exact absurd hv (by simp)
    | ok m =>
      simp only [websocket_hook, hdec] at hv
      rcases match_packet_lobby_no_drop hax m with ⟨e, he⟩ | hdn | ⟨m2, hm⟩
      · simp only [he] at hv
        exact absurd hv (by simp)
      · simp only [hdn, Prod.mk.injEq, Except.ok.injEq] at hv
        exact hv.2.2.symm
      · exfalso
        have hfull : match_packet_lobby hax m =
            ((match_packet_lobby hax m).1, Except.ok (WebSocketHookAction.change m2)) := by
          rw [← hm]
        have hd := lobby_toggles_off_doNothing hax m hsp hsm hsv
          (match_packet_lobby hax m).1 (WebSocketHookAction.change m2) hfull
        exact absurd hd (by simp)

/-- Witness for `lobby_changed_requires_toggle`: with all toggles off, a
concrete listing frame is left unchanged and forwarded verbatim. -/
theorem lobby_changed_requires_toggle_witness :
    emptyHax.strip_passwords = false ∧
      (websocket_hook passCodec emptyHax WebSocketServer.lobbyServer Direction.client_to_server
        ([3])).2 = Except.ok (true, ([3] : List Nat)) ∧ (([3] : List Nat) = [3]) :=
  ⟨rfl, rfl,
   ((lobby_changed_requires_toggle passCodec emptyHax Direction.client_to_server ([3])
      webGameListMsg).2 rfl rfl rfl).2 emptyHax true ([3]) rfl⟩

/-- C4: evaluation at the failing input.  A successful join-game
response whose single actor entry carries a non-string nickname sets
`player_id` and then fails decoding the actor's `Player` record; the
dispatch returns the error while the state already holds `player_id`
with no player entry applied — the Session State update of this dispatch
is not atomic, and the partial state is what the next frame sees. -/
theorem join_partial_state_on_failure :
    (match_packet_game emptyHax badJoinMsg).1.player_id = some 5 ∧
      (match_packet_game emptyHax badJoinMsg).1.players = [] ∧
      (match_packet_game emptyHax badJoinMsg).2 =
        Except.error ("malformed player properties") :=
  ⟨rfl, rfl, rfl⟩

/-- C5: exemption.  For every toggle combination, a room whose custom
property keyed exactly `gameversion` (lower case) starts with the
reserved tag is passed through the game-list loop with its name and all
its properties untouched, and it contributes nothing to the changed
flag of the listing; a room carrying the reserved value under the
differently-cased `gameVersion` key is not exempted. -/
theorem gameversion_exemption (sp sm sv : Bool) (gv : Option String) (name : String)
    (props rest : List (PhotonDataType × PhotonDataType)) (ri : RoomInfo)
    (h1 : RoomInfo.from_map props = Except.ok ri)
    (h2 : isExemptRoom ri = true) :
    processGames sp sm sv gv
        ((PhotonDataType.string name, PhotonDataType.hashtable props) :: rest) =
      (processGames sp sm sv gv rest).map
        (fun p => ((PhotonDataType.string name, PhotonDataType.hashtable props) :: p.1, p.2)) ∧
    (∀ s : String, isExemptRoom
        { custom_properties := [(gameVersionKey, PhotonDataType.string s)],
          other_fields := [] } = false) := by
  constructor
  · simp only [processGames, h1, if_pos h2]
  · intro s
    unfold isExemptRoom
    simp only [getProp]
    rw [if_neg (by decide)]

/-- Witness for `gameversion_exemption`: a concrete exempt room is
forwarded untouched with all toggles enabled, and the same reserved
value under the capitalised key is not exempt. -/
theorem gameversion_exemption_witness :
    processGames true true true none
        ((PhotonDataType.string ("r9"), PhotonDataType.hashtable exemptProps) ::
          ([] : List (PhotonDataType × PhotonDataType))) =
      (processGames true true true none []).map
        (fun p => ((PhotonDataType.string ("r9"), PhotonDataType.hashtable exemptProps) ::
          p.1, p.2)) ∧
      isExemptRoom
        { custom_properties := [(gameVersionKey, PhotonDataType.string ("newfps-x"))],
          other_fields := [] } = false :=
  ⟨(gameversion_exemption true true true none ("r9") exemptProps [] exemptRI rfl rfl).1,
   (gameversion_exemption true true true none ("r9") exemptProps [] exemptRI rfl rfl).2
     ("newfps-x")⟩

/-- C6: version pinning.  With `show_other_versions` enabled and a known
local version, the rule runs with the effective version (the portion
before the first underscore); a room whose `gameVersion` differs gets
its display name tagged with the original version and its version
overwritten with the effective local version; with no known local
version the rule is skipped for the room and the other rules apply
unchanged; and the spec's example version derives as stated. -/
theorem version_pinning (sp sm : Bool) (ri : RoomInfo) (v actual name : String)
    (h1 : getProp ri.custom_properties gameVersionKey = some (PhotonDataType.string actual))
    (h2 : getProp ri.custom_properties roomNameKey = some (PhotonDataType.string name))
    (h3 : actual ≠ effectiveVersion v) :
    getProp (force_games_current_ver ri (effectiveVersion v)).custom_properties gameVersionKey
        = some (PhotonDataType.string (effectiveVersion v)) ∧
      getProp (force_games_current_ver ri (effectiveVersion v)).custom_properties roomNameKey
        = some (PhotonDataType.string (brTagL ++ actual ++ brTagR ++ name)) ∧
      processRoom false false true (some v) ri =
        (force_games_current_ver ri (effectiveVersion v), true) ∧
      (∀ ri2 : RoomInfo, processRoom sp sm true none ri2 = processRoom sp sm false none ri2) ∧
      effectiveVersion vSample = ("1.89.0") := by
  refine ⟨?_, ?_, rfl, fun ri2 => rfl, rfl⟩
  · simp only [force_games_current_ver, h1]
    rw [if_pos h3]
    have ha : getProp (updateStringProp ri.custom_properties roomNameKey
        (fun n => brTagL ++ actual ++ brTagR ++ n)) gameVersionKey =
        some (PhotonDataType.string actual) := by
      rw [getProp_update_ne roomNameKey gameVersionKey _ (by decide)]
      exact h1
    exact getProp_update_found gameVersionKey _ actual _ ha
  · simp only [force_games_current_ver, h1]
    rw [if_pos h3]
    rw [getProp_update_ne gameVersionKey roomNameKey _ (by decide)]
    exact getProp_update_found roomNameKey _ name _ h2

/-- Witness for `version_pinning`, mirroring the spec example: local
version `1.89.0_1.99`, room version `1.80.0`, room name `Room`. -/
theorem version_pinning_witness :
    getProp (force_games_current_ver verRI (effectiveVersion vSample)).custom_properties
        gameVersionKey = some (PhotonDataType.string ("1.89.0")) ∧
      getProp (force_games_current_ver verRI (effectiveVersion vSample)).custom_properties
        roomNameKey = some (PhotonDataType.string ("[1.80.0] Room")) := by
  have h := version_pinning false false verRI vSample ("1.80.0") ("Room") rfl rfl (by decide)
  exact ⟨h.1, h.2.1⟩

/-- C7: password stripping.  Any room whose password custom property is
a non-empty string gets the password tag prepended to its display name
and its password blanked; a room whose password property is empty (or
not a non-empty string, or absent) is left completely unchanged by this
rule. -/
theorem password_stripping (ri : RoomInfo) (s name : String)
    (h1 : getProp ri.custom_properties passwordKey = some (PhotonDataType.string s))
    (h2 : s ≠ (""))
    (h3 : getProp ri.custom_properties roomNameKey = some (PhotonDataType.string name)) :
    getProp (strip_password ri).custom_properties passwordKey =
        some (PhotonDataType.string ("")) ∧
      getProp (strip_password ri).custom_properties roomNameKey =
        some (PhotonDataType.string (pTag ++ name)) ∧
      (∀ ri2 : RoomInfo,
        (∀ s2, getProp ri2.custom_properties passwordKey = some (PhotonDataType.string s2) →
          s2 = ("")) → strip_password ri2 = ri2) := by
  have hie : s.isEmpty = false := by
    cases hb : s.isEmpty with
    | false => rfl
    | true => exact absurd ((String.isEmpty_iff s).mp hb) h2
  refine ⟨?_, ?_, ?_⟩
  · simp only [strip_password, h1, hie, Bool.not_false, if_true]
    have ha : getProp (updateStringProp ri.custom_properties roomNameKey
        (fun n => pTag ++ n)) passwordKey = some (PhotonDataType.string s) := by
      rw [getProp_update_ne roomNameKey passwordKey _ (by decide)]
      exact h1
    exact getProp_update_found passwordKey _ s _ ha
  · simp only [strip_password, h1, hie, Bool.not_false, if_true]
    rw [getProp_update_ne passwordKey roomNameKey _ (by decide)]
    exact getProp_update_found roomNameKey _ name _ h3
  · intro ri2 hp
    unfold strip_password
    cases hgp : getProp ri2.custom_properties passwordKey with
    | none => rfl
    | some w =>
      cases w with
      | string s2 =>
        have hs2 := hp s2 hgp
        subst hs2
        rfl
      | null => rfl
      | boolean b => rfl
      | byte n => rfl
      | integer n => rfl
      | hashtable es => rfl
      | objectArray xs => rfl

/-- Witness for `password_stripping` at the spec example: password
`secret`, room name `A`. -/
theorem password_stripping_witness :
    getProp (strip_password pwRI).custom_properties passwordKey =
        some (PhotonDataType.string ("")) ∧
      getProp (strip_password pwRI).custom_properties roomNameKey =
        some (PhotonDataType.string ("[p] A")) := by
  have h := password_stripping pwRI ("secret") ("A") rfl (by decide) rfl
  exact ⟨h.1, h.2.1⟩

/-- C8: platform masking.  For every room whose store tag is a string,
the tag is rewritten to the canonical web tag, and (when the room has a
display name) the name is prefixed with nothing if the tag was already
canonical, with the mobile tag marker if it was the mobile tag, and with
the bracketed raw id otherwise. -/
theorem platform_masking (ri : RoomInfo) (sid name : String)
    (h1 : getProp ri.custom_properties storeIDKey = some (PhotonDataType.string sid))
    (h2 : getProp ri.custom_properties roomNameKey = some (PhotonDataType.string name)) :
    getProp (force_games_web ri).custom_properties storeIDKey =
        some (PhotonDataType.string webStore) ∧
      getProp (force_games_web ri).custom_properties roomNameKey =
        some (PhotonDataType.string
          (if sid = webStore then name
           else if sid = mobileStore then mTag ++ name
           else brTagL ++ sid ++ brTagR ++ name)) := by
  constructor
  · simp only [force_games_web, h1]
    have ha : getProp (updateStringProp ri.custom_properties roomNameKey
        (fun n => if sid = webStore then n
          else if sid = mobileStore then mTag ++ n
          else brTagL ++ sid ++ brTagR ++ n)) storeIDKey =
        some (PhotonDataType.string sid) := by
      rw [getProp_update_ne roomNameKey storeIDKey _ (by decide)]
      exact h1
    exact getProp_update_found storeIDKey _ sid _ ha
  · simp only [force_games_web, h1]
    rw [getProp_update_ne storeIDKey roomNameKey _ (by decide)]
    exact getProp_update_found roomNameKey _ name _ h2

/-- Witness for `platform_masking` at the spec example: a mobile-store
room is forced to the web store and its name gains the mobile marker. -/
theorem platform_masking_witness :
    getProp (force_games_web mobRI).custom_properties storeIDKey =
        some (PhotonDataType.string webStore) ∧
      getProp (force_games_web mobRI).custom_properties roomNameKey =
        some (PhotonDataType.string ("[M] B")) := by
  have h := platform_masking mobRI mobileStore ("B") rfl rfl
  exact ⟨h.1, h.2⟩

theorem hook_state_src (codec : Codec) (hax : HaxState) (server : WebSocketServer)
    (dir : Direction) (data : List Nat) :
    (websocket_hook codec hax server dir data).1 = hax ∨
      ∃ m, codec.decode data = Except.ok m ∧
        (websocket_hook codec hax server dir data).1 =
          (match server with
           | WebSocketServer.lobbyServer => match_packet_lobby hax m
           | WebSocketServer.gameServer => match_packet_game hax m).1 := by
  cases hdec : codec.decode data with
  | error e =>
    left
    simp only [websocket_hook, hdec]
  | ok m =>
    right
    refine ⟨m, rfl, ?_⟩
    simp only [websocket_hook, hdec]
    cases server with
    | lobbyServer =>
      cases hact : (match_packet_lobby hax m).2 with
      | error e => simp only [hact]
      | ok a =>
        cases a with
        | drop => simp only [hact]
        | doNothing => simp only [hact]
        | change m2 =>
          simp only [hact]
          cases henc : codec.encode m2 with
          | error e => simp only [henc]
          | ok buf => simp only [henc]
    | gameServer =>
      cases hact : (match_packet_game hax m).2 with
      | error e => simp only [hact]
      | ok a =>
        cases a with
        | drop => simp only [hact]
        | doNothing => simp only [hact]
        | change m2 =>
          simp only [hact]
          cases henc : codec.encode m2 with
          | error e => simp only [henc]
          | ok buf => simp only [henc]

/-- C9: session state invariant.  Across any dispatched frame, entries
of the players map are never deleted (a present actor id is still
present afterwards, possibly overwritten); `player_id` changes only when
the frame is routed to the game channel and decodes to an operation
response with the join-game code and success status; and the concrete
scenario holds: a join response with actors 1 and 2 populates both, and
a later response carrying only actor 2 updates that entry while leaving
actor 1 intact. -/
theorem session_state_invariant (codec : Codec) (hax : HaxState) (server : WebSocketServer)
    (dir : Direction) (data : List Nat) :
    (∀ (k : Int) (p : Player), lookupPlayer hax.players k = some p →
      ∃ q, lookupPlayer ((websocket_hook codec hax server dir data).1).players k = some q) ∧
    (((websocket_hook codec hax server dir data).1).player_id ≠ hax.player_id →
      server = WebSocketServer.gameServer ∧
        ∃ r, codec.decode data = Except.ok (PhotonMessage.operationResponse r) ∧
          r.operation_code = operation_code.JOIN_GAME ∧ r.return_code = 0) ∧
    (scenHax1.player_id = some 1 ∧
      lookupPlayer scenHax1.players 1 = some P1rec ∧
      lookupPlayer scenHax1.players 2 = some P2rec ∧
      lookupPlayer scenHax2.players 1 = some P1rec ∧
      lookupPlayer scenHax2.players 2 = some P2brec) := by
  refine ⟨?_, ?_, rfl, rfl, rfl, rfl, rfl⟩
  · intro k p hkp
    rcases hook_state_src codec hax server dir data with heq | ⟨m, hdec, heq⟩
    · rw [heq]
      exact ⟨p, hkp⟩
    · rw [heq]
      cases server with
      | lobbyServer =>
        rw [(match_packet_lobby_state hax m).1]
        exact ⟨p, hkp⟩
      | gameServer =>
        exact match_packet_game_players_mono hax m k ⟨p, hkp⟩
  · intro hne
    rcases hook_state_src codec hax server dir data with heq | ⟨m, hdec, heq⟩
    · rw [heq] at hne
      exact absurd rfl hne
    · rw [heq] at hne
      cases server with
      | lobbyServer =>
        rw [(match_packet_lobby_state hax m).2] at hne
        exact absurd rfl hne
      | gameServer =>
        rcases match_packet_game_player_id hax m with hpres | ⟨r, hm, hcode, hret⟩
        · rw [hpres] at hne
          exact absurd rfl hne
        · rw [hm] at hdec
          exact ⟨rfl, r, hdec, hcode, hret⟩

/-- Witness for `session_state_invariant`: a present player entry
survives a dispatched join frame, and a dispatch that changed
`player_id` is a successful game-channel join response. -/
theorem session_state_invariant_witness :
    (∃ q, lookupPlayer ((websocket_hook joinCodec scenHax1 WebSocketServer.gameServer
        Direction.server_to_client ([9])).1).players 1 = some q) ∧
      (WebSocketServer.gameServer = WebSocketServer.gameServer ∧
        ∃ r, joinCodec.decode ([9]) = Except.ok (PhotonMessage.operationResponse r) ∧
          r.operation_code = operation_code.JOIN_GAME ∧ r.return_code = 0) :=
  ⟨(session_state_invariant joinCodec scenHax1 WebSocketServer.gameServer
      Direction.server_to_client ([9])).1 1 P1rec rfl,
   (session_state_invariant joinCodec emptyHax WebSocketServer.gameServer
      Direction.server_to_client ([9])).2.1 (by decide)⟩
